import Mathlib

/-!
# go_redis_cart: the cart handlers of `main.go`

A shallow embedding of `addToCartHandler` and `viewCartHandler` and of the
library calls they make.

Modelling conventions.

* JSON texts are kept as parsed trees (`JSON`).  A byte payload (request body,
  Redis list element) is a `Payload`: either the text of one JSON value or
  text that the scanner of `encoding/json` rejects.
* A `float64` is `Float64`; finite values are named by their bit pattern, so
  the Go zero value is `finite 0`.  A JSON number literal is recorded by what
  `strconv.ParseFloat(lit, 64)` makes of it (`Number`).
* A Go slice is `Slice α = Option (List α)`, `none` being the nil slice.
* The Redis server is a map from keys to lists of payloads (the missing key is
  the empty list); each command may fail with an error reply, in which case it
  has no effect (`Faults`).
* `uuid.New().String()` is an input of `addToCartHandler`.
* A response is its status code and body; logging and headers are left out.
-/

set_option autoImplicit false

namespace GoRedisCart

/-! ## Data model -/

/-- Go `float64` values. -/
inductive Float64 where
  | finite (bits : Nat)
  | inf (negative : Bool)
  | nan
deriving DecidableEq, Repr

/-- `Product` of main.go, lines 19-23. -/
structure Product where
  ID : String
  Name : String
  Price : Float64
deriving DecidableEq, Repr

/-- The Go zero value of `Product` (`var product Product`). -/
def Product.zero : Product := ⟨"", "", Float64.finite 0⟩

/-- A JSON number literal, named by the result of `strconv.ParseFloat(lit, 64)`:
a finite value, or a range error. -/
inductive Number where
  | inRange (bits : Nat)
  | outOfRange
deriving DecidableEq, Repr

/-- JSON values. -/
inductive JSON where
  | null
  | bool (b : Bool)
  | num (n : Number)
  | str (s : String)
  | arr (elems : List JSON)
  | obj (members : List (String × JSON))

/-- Byte payloads as `encoding/json` sees them: the text of a JSON value, or
text its scanner rejects (the empty body included).  For a request body, read
by `Decoder.Decode`, `json v` is a body whose first JSON value is `v`. -/
inductive Payload where
  | json (v : JSON)
  | malformed (raw : String)

/-- Go slices: `none` is the nil slice. -/
abbrev Slice (α : Type) := Option (List α)

/-- Go `append(s, xs...)`: appending nothing gives back `s` itself. -/
def Slice.appendAll {α : Type} (s : Slice α) (xs : List α) : Slice α :=
  match xs with
  | [] => s
  | x :: rest => some (s.getD [] ++ x :: rest)

/-- Go `append(s, x)`. -/
def Slice.append {α : Type} (s : Slice α) (x : α) : Slice α :=
  some (s.getD [] ++ [x])

/-- The elements of a slice. -/
def Slice.elems {α : Type} (s : Slice α) : List α := s.getD []

/-! ## encoding/json -/

/-- Errors of `encoding/json`. -/
inductive JsonError where
  | syntaxError
  | unmarshalType (value : String)
deriving DecidableEq, Repr

/-- `strconv.ParseFloat(lit, 64)`. -/
def parseFloat : Number → Option Float64
  | .inRange bits => some (.finite bits)
  | .outOfRange => none

/-- The float encoder of `encoding/json`: NaN and infinities are unsupported
values; a finite value is written with the shortest literal that reads back as
the same value. -/
def formatFloat : Float64 → Option Number
  | .finite bits => some (.inRange bits)
  | .inf _ => none
  | .nan => none

/-- ASCII upper-casing of one character, as in `foldName`. -/
def foldChar (c : Char) : Char :=
  if 'a' ≤ c ∧ c ≤ 'z' then Char.ofNat (c.toNat - 32) else c

/-- The case-folded name of an object key.  Non-ASCII characters are left
alone: no such character folds to a letter of ID, NAME or PRICE. -/
def foldName (s : String) : List Char := s.toList.map foldChar

/-- The fields of `Product`. -/
inductive Field where
  | id
  | name
  | price
deriving DecidableEq, Repr

/-- Field lookup of the struct decoder: by exact name, else by folded name.
The three names stay distinct under folding, so one test decides. -/
def lookupField (key : String) : Option Field :=
  if foldName key = ['I', 'D'] then some .id
  else if foldName key = ['N', 'A', 'M', 'E'] then some .name
  else if foldName key = ['P', 'R', 'I', 'C', 'E'] then some .price
  else none

/-- The `Value` text of an `UnmarshalTypeError` for a JSON value. -/
def JSON.kind : JSON → String
  | .null => "null"
  | .bool _ => "bool"
  | .num _ => "number"
  | .str _ => "string"
  | .arr _ => "array"
  | .obj _ => "object"

/-- Decoder state while filling one `Product`: the value so far and the first
saved error (`d.savedError`). -/
structure Decoding where
  value : Product
  savedError : Option JsonError

/-- `d.saveError`: only the first error is kept. -/
def Decoding.saveError (d : Decoding) (e : JsonError) : Decoding :=
  match d.savedError with
  | none => { d with savedError := some e }
  | some _ => d

/-- Storing one JSON value into a string field (`literalStore`): a string is
stored, null is ignored, anything else is a type error. -/
def storeString (d : Decoding) (set : Product → String → Product) (v : JSON) : Decoding :=
  match v with
  | .str s => { d with value := set d.value s }
  | .null => d
  | other => d.saveError (.unmarshalType other.kind)

/-- Storing one JSON value into the `float64` field. -/
def storeFloat (d : Decoding) (v : JSON) : Decoding :=
  match v with
  | .num n =>
    match parseFloat n with
    | some x => { d with value := { d.value with Price := x } }
    | none => d.saveError (.unmarshalType "number")
  | .null => d
  | other => d.saveError (.unmarshalType other.kind)

/-- One member of a JSON object decoded into the struct: unknown keys are
skipped. -/
def storeMember (d : Decoding) (member : String × JSON) : Decoding :=
  match lookupField member.1 with
  | none => d
  | some .id => storeString d (fun p s => { p with ID := s }) member.2
  | some .name => storeString d (fun p s => { p with Name := s }) member.2
  | some .price => storeFloat d member.2

/-- Decoding one JSON value into a `Product` that starts as `start`
(`d.value` on a struct): the members of an object in order, null is a no-op,
every other value is a type error. -/
def decodeProductValue (start : Product) (v : JSON) : Decoding :=
  match v with
  | .obj members => members.foldl storeMember ⟨start, none⟩
  | .null => ⟨start, none⟩
  | other => ⟨start, some (.unmarshalType other.kind)⟩

/-- Go `json.Unmarshal(data, &p)` and `json.NewDecoder(body).Decode(&p)` for
a fresh `var p Product`. -/
def unmarshalProduct (data : Payload) : Except JsonError Product :=
  match data with
  | .malformed _ => .error .syntaxError
  | .json v =>
    match (decodeProductValue Product.zero v).savedError with
    | some e => .error e
    | none => .ok (decodeProductValue Product.zero v).value

/-- The elements of a JSON array decoded into fresh slice elements; the first
error is the one reported. -/
def decodeElems : List JSON → Except JsonError (List Product)
  | [] => .ok []
  | v :: rest =>
    match (decodeProductValue Product.zero v).savedError, decodeElems rest with
    | some e, _ => .error e
    | none, .error e => .error e
    | none, .ok ps => .ok ((decodeProductValue Product.zero v).value :: ps)

/-- Go `json.Unmarshal(data, &s)` for a fresh `var s []Product`: null leaves
the nil slice, an array gives a non-nil slice, every other value is a type
error. -/
def unmarshalProducts (data : Payload) : Except JsonError (Slice Product) :=
  match data with
  | .malformed _ => .error .syntaxError
  | .json (.arr elems) =>
    match decodeElems elems with
    | .ok ps => .ok (some ps)
    | .error e => .error e
  | .json .null => .ok none
  | .json other => .error (.unmarshalType other.kind)

/-- The struct encoder for `Product`. -/
def encodeProduct (p : Product) : Option JSON :=
  match formatFloat p.Price with
  | some n => some (.obj [("id", .str p.ID), ("name", .str p.Name), ("price", .num n)])
  | none => none

/-- The array encoder: the elements in order; one unsupported value fails the
whole encoding. -/
def encodeElems : List Product → Option (List JSON)
  | [] => some []
  | p :: rest =>
    match encodeProduct p, encodeElems rest with
    | some v, some vs => some (v :: vs)
    | _, _ => none

/-- Go `json.Marshal(products)` for a `[]Product`: the nil slice is `null`. -/
def marshalProducts (products : Slice Product) : Option JSON :=
  match products with
  | none => some .null
  | some ps =>
    match encodeElems ps with
    | some elems => some (.arr elems)
    | none => none

/-! ## Redis -/

/-- The Redis keyspace as the handlers use it: a list of payloads under each
key.  A key that does not exist holds the empty list (Redis removes a list
key when its list becomes empty, and reads a missing key as the empty list). -/
abbrev Store := String → List Payload

/-- Error reply of a Redis command (connection refused, timeout). -/
inductive RedisError where
  | unavailable
deriving DecidableEq, Repr

/-- Which commands of one handler run fail.  A failed command has no effect
on the keyspace. -/
structure Faults where
  lrange : Bool
  del : Bool
  rpush : Bool
deriving DecidableEq, Repr

/-- The store answers every command. -/
def Faults.none : Faults := ⟨false, false, false⟩

/-- The connection is severed: every command fails. -/
def Faults.all : Faults := ⟨true, true, true⟩

/-- Go `redisClient.LRange(ctx, key, 0, -1).Result()`. -/
def LRange (f : Faults) (key : String) (st : Store) :
    Except RedisError (List Payload) × Store :=
  if f.lrange then (.error .unavailable, st) else (.ok (st key), st)

/-- Go `redisClient.Del(ctx, key).Err()`. -/
def Del (f : Faults) (key : String) (st : Store) : Except RedisError Unit × Store :=
  if f.del then (.error .unavailable, st) else (.ok (), Function.update st key [])

/-- Go `redisClient.RPush(ctx, key, value).Err()`. -/
def RPush (f : Faults) (key : String) (value : Payload) (st : Store) :
    Except RedisError Unit × Store :=
  if f.rpush then (.error .unavailable, st)
  else (.ok (), Function.update st key (st key ++ [value]))

/-! ## HTTP -/

/-- What a handler wrote to the response body. -/
inductive Body where
  | text (s : String)
  | json (v : JSON)

/-- The response of a handler: status code and body. -/
structure Response where
  status : Nat
  body : Body

/-- Go `http.Error(w, msg, code)`: the message and a newline as plain text. -/
def httpError (msg : String) (code : Nat) : Response := ⟨code, .text (msg ++ "\n")⟩

/-- Go `fmt.Sprintf("cart:%s", userID)`. -/
def cartKey (userID : String) : String := "cart:" ++ userID

/-! ## The handlers -/

/-- The loop of `addToCartHandler`, lines 98-107: every stored payload is
unmarshalled into a fresh `Product` and appended; the first failure ends the
handler. -/
def addLoop : List Payload → Slice Product → Except JsonError (Slice Product)
  | [], products => .ok products
  | productJSON :: rest, products =>
    match unmarshalProduct productJSON with
    | .error e => .error e
    | .ok existingProduct => addLoop rest (products.append existingProduct)

/-- Go `addToCartHandler`, lines 74-133.  `uuid` is the value of
`uuid.New().String()`, `body` the request body. -/
def addToCartHandler (f : Faults) (uuid : String) (body : Payload) (st : Store) :
    Response × Store :=
  match unmarshalProduct body with
  | .error _ => (httpError "Error decoding request body" 400, st)
  | .ok product =>
    let userID := uuid
    let key := cartKey userID
    match LRange f key st with
    | (.error _, st1) => (httpError "Error retrieving shopping cart" 500, st1)
    | (.ok productsJSON, st1) =>
      match addLoop productsJSON none with
      | .error _ => (httpError "Error decoding product from JSON" 500, st1)
      | .ok products =>
        let products := products.append product
        match marshalProducts products with
        | none => (httpError "Error encoding updated cart to JSON" 500, st1)
        | some updatedCart =>
          match Del f key st1 with
          | (.error _, st2) => (httpError "Error clearing existing cart" 500, st2)
          | (.ok _, st2) =>
            match RPush f key (.json updatedCart) st2 with
            | (.error _, st3) => (httpError "Error updating shopping cart" 500, st3)
            | (.ok _, st3) => (⟨201, .text ("Product added to cart: " ++ userID)⟩, st3)

/-- The loop of `viewCartHandler`, lines 147-158: every stored payload is
unmarshalled into a fresh `[]Product` whose elements are appended. -/
def viewLoop : List Payload → Slice Product → Except JsonError (Slice Product)
  | [], products => .ok products
  | productJSON :: rest, products =>
    match unmarshalProducts productJSON with
    | .error e => .error e
    | .ok productArray => viewLoop rest (products.appendAll productArray.elems)

/-- Go `json.NewEncoder(w).Encode(products)` with its error dropped: a value
that cannot be encoded writes nothing. -/
def encodeBody (products : Slice Product) : Body :=
  match marshalProducts products with
  | some v => .json v
  | none => .text ""

/-- Go `viewCartHandler`, lines 135-163.  `userId` is the path variable.  No
status is written on success, so the response goes out with 200. -/
def viewCartHandler (f : Faults) (userId : String) (st : Store) : Response × Store :=
  let key := cartKey userId
  match LRange f key st with
  | (.error _, st1) => (httpError "Error retrieving shopping cart" 500, st1)
  | (.ok productsJSON, st1) =>
    match viewLoop productsJSON none with
    | .error _ => (httpError "Error decoding product array from JSON" 500, st1)
    | .ok products => (⟨200, encodeBody products⟩, st1)

/-! ## Predicates and example values -/

/-- The empty keyspace. -/
def Store.empty : Store := fun _ => []

/-- The JSON text of a request for a product with the given fields. -/
def productBody (id name : String) (bits : Nat) : Payload :=
  .json (.obj [("id", .str id), ("name", .str name), ("price", .num (.inRange bits))])

/-- A `float64` that is neither NaN nor an infinity. -/
def Float64.isFinite : Float64 → Bool
  | .finite _ => true
  | .inf _ => false
  | .nan => false

/-- The items a list of stored payloads decodes to, one `Product` per
payload, as `addLoop` reads them. -/
def DecodesTo (payloads : List Payload) (items : List Product) : Prop :=
  List.Forall₂ (fun b p => unmarshalProduct b = .ok p) payloads items

/-- The slices a list of stored payloads decodes to, one `[]Product` per
payload, as `viewLoop` reads them. -/
def DecodesToSlices (payloads : List Payload) (slices : List (Slice Product)) : Prop :=
  List.Forall₂ (fun b s => unmarshalProducts b = .ok s) payloads slices

/-- The JSON object `encodeProduct` writes for a finite price. -/
def productObject (p : Product) (bits : Nat) : JSON :=
  .obj [("id", .str p.ID), ("name", .str p.Name), ("price", .num (.inRange bits))]

/-! ## Interleaved calls -/

/-- Where an add-item call stands between its store commands. -/
inductive AddCall where
  | start (uuid : String) (body : Payload)
  | afterRead (uuid : String) (product : Product) (productsJSON : List Payload)
  | afterDel (uuid : String) (updatedCart : JSON)
  | done (resp : Response)

/-- One step of an add-item call: the handler code up to and including its
next store command (`LRange`, then `Del`, then `RPush`), which is atomic. -/
def AddCall.step (f : Faults) (c : AddCall) (st : Store) : AddCall × Store :=
  match c with
  | .start uuid body =>
    match unmarshalProduct body with
    | .error _ => (.done (httpError "Error decoding request body" 400), st)
    | .ok product =>
      match LRange f (cartKey uuid) st with
      | (.error _, st1) => (.done (httpError "Error retrieving shopping cart" 500), st1)
      | (.ok productsJSON, st1) => (.afterRead uuid product productsJSON, st1)
  | .afterRead uuid product productsJSON =>
    match addLoop productsJSON none with
    | .error _ => (.done (httpError "Error decoding product from JSON" 500), st)
    | .ok products =>
      match marshalProducts (products.append product) with
      | none => (.done (httpError "Error encoding updated cart to JSON" 500), st)
      | some updatedCart =>
        match Del f (cartKey uuid) st with
        | (.error _, st2) => (.done (httpError "Error clearing existing cart" 500), st2)
        | (.ok _, st2) => (.afterDel uuid updatedCart, st2)
  | .afterDel uuid updatedCart =>
    match RPush f (cartKey uuid) (.json updatedCart) st with
    | (.error _, st3) => (.done (httpError "Error updating shopping cart" 500), st3)
    | (.ok _, st3) => (.done ⟨201, .text ("Product added to cart: " ++ uuid)⟩, st3)
  | .done resp => (.done resp, st)

/-- A request in flight: an add-item call, or a view-cart call, which has a
single store command and so a single step. -/
inductive Call where
  | add (c : AddCall)
  | view (userId : String)
  | viewDone (resp : Response)

/-- One step of a call. -/
def Call.step (f : Faults) (c : Call) (st : Store) : Call × Store :=
  match c with
  | .add a => (.add (a.step f st).1, (a.step f st).2)
  | .view userId => (.viewDone (viewCartHandler f userId st).1, (viewCartHandler f userId st).2)
  | .viewDone resp => (.viewDone resp, st)

/-- The calls in flight and the store they share. -/
structure System where
  calls : List Call
  store : Store

/-- The scheduler lets call number `k` take one step. -/
def System.step (f : Faults) (sys : System) (k : Nat) : System :=
  match sys.calls[k]? with
  | none => sys
  | some c => ⟨sys.calls.set k (c.step f sys.store).1, (c.step f sys.store).2⟩

/-- An interleaving: the calls step in the order the schedule lists them. -/
def System.run (f : Faults) (sys : System) (schedule : List Nat) : System :=
  schedule.foldl (System.step f) sys

/-- Two add-item calls for the same identifier, not yet started. -/
def twoAdds (uuid : String) (bodyA bodyB : Payload) (st : Store) : System :=
  ⟨[.add (.start uuid bodyA), .add (.start uuid bodyB)], st⟩

/-- Two add-item calls and a view-cart call for the same identifier, not yet
started. -/
def twoAddsAndView (uuid : String) (bodyA bodyB : Payload) (st : Store) : System :=
  ⟨[.add (.start uuid bodyA), .add (.start uuid bodyB), .view uuid], st⟩

/-- An example item. -/
def apple : Product := ⟨"a", "apple", .finite 3⟩

/-- A second example item. -/
def pear : Product := ⟨"b", "pear", .finite 2⟩

/-- The request body of `apple`. -/
def appleBody : Payload := productBody "a" "apple" 3

/-- The request body of `pear`. -/
def pearBody : Payload := productBody "b" "pear" 2

/-! ## Lemmas -/

theorem Slice.appendAll_nil {α : Type} (s : Slice α) : s.appendAll [] = s := rfl

theorem Slice.append_eq_appendAll {α : Type} (s : Slice α) (x : α) :
    s.append x = s.appendAll [x] := rfl

theorem Slice.appendAll_appendAll {α : Type} (s : Slice α) (xs ys : List α) :
    (s.appendAll xs).appendAll ys = s.appendAll (xs ++ ys) := by
  cases xs with
  | nil => simp [Slice.appendAll]
  | cons x xs =>
    cases ys with
    | nil => simp [Slice.appendAll]
    | cons y ys => simp [Slice.appendAll]

theorem Slice.elems_appendAll {α : Type} (s : Slice α) (xs : List α) :
    (s.appendAll xs).elems = s.elems ++ xs := by
  cases xs with
  | nil => simp [Slice.appendAll, Slice.elems]
  | cons x xs => simp [Slice.appendAll, Slice.elems]

theorem Slice.append_eq_some {α : Type} (s : Slice α) (x : α) :
    s.append x = some (s.elems ++ [x]) := rfl

theorem saveError_value (d : Decoding) (e : JsonError) : (d.saveError e).value = d.value := by
  unfold Decoding.saveError
  split <;> rfl

theorem saveError_ne_none (d : Decoding) (e : JsonError) : (d.saveError e).savedError ≠ none := by
  unfold Decoding.saveError
  split
  · simp
  · next h => simp [h]

theorem storeString_price (d : Decoding) (set : Product → String → Product) (v : JSON)
    (hset : ∀ p s, (set p s).Price = p.Price) :
    (storeString d set v).value.Price = d.value.Price := by
  unfold storeString
  split
  · simp [hset]
  · rfl
  · simp [saveError_value]

theorem storeFloat_finite (d : Decoding) (v : JSON) (h : d.value.Price.isFinite = true) :
    (storeFloat d v).value.Price.isFinite = true := by
  unfold storeFloat
  split
  · next n =>
    cases n with
    | inRange bits => simp [parseFloat, Float64.isFinite]
    | outOfRange => simpa [parseFloat, saveError_value] using h
  · exact h
  · simpa [saveError_value] using h

theorem storeMember_finite (d : Decoding) (m : String × JSON)
    (h : d.value.Price.isFinite = true) : (storeMember d m).value.Price.isFinite = true := by
  unfold storeMember
  split
  · exact h
  · rw [storeString_price d (fun p s => { p with ID := s }) m.2 (fun _ _ => rfl)]; exact h
  · rw [storeString_price d (fun p s => { p with Name := s }) m.2 (fun _ _ => rfl)]; exact h
  · exact storeFloat_finite d m.2 h

theorem foldl_storeMember_finite (members : List (String × JSON)) (d : Decoding)
    (h : d.value.Price.isFinite = true) :
    (members.foldl storeMember d).value.Price.isFinite = true := by
  induction members generalizing d with
  | nil => exact h
  | cons m rest ih => exact ih _ (storeMember_finite d m h)

theorem decodeProductValue_finite (v : JSON) :
    (decodeProductValue Product.zero v).value.Price.isFinite = true := by
  unfold decodeProductValue
  split
  · exact foldl_storeMember_finite _ _ rfl
  · rfl
  · rfl

/-- A decoded `Product` never carries NaN or an infinity. -/
theorem unmarshalProduct_finite (data : Payload) (p : Product)
    (h : unmarshalProduct data = .ok p) : p.Price.isFinite = true := by
  unfold unmarshalProduct at h
  split at h
  · cases h
  · next v =>
    split at h
    · cases h
    · cases h
      exact decodeProductValue_finite v

theorem decodeElems_finite (elems : List JSON) (ps : List Product)
    (h : decodeElems elems = .ok ps) : ∀ p ∈ ps, p.Price.isFinite = true := by
  induction elems generalizing ps with
  | nil =>
    simp [decodeElems] at h
    subst h
    simp
  | cons v rest ih =>
    unfold decodeElems at h
    split at h
    · cases h
    · cases h
    · next hrest =>
      cases h
      intro p hp
      rcases List.mem_cons.mp hp with rfl | hp
      · exact decodeProductValue_finite v
      · exact ih _ hrest p hp

theorem unmarshalProducts_finite (data : Payload) (s : Slice Product)
    (h : unmarshalProducts data = .ok s) : ∀ p ∈ s.elems, p.Price.isFinite = true := by
  unfold unmarshalProducts at h
  split at h
  · cases h
  · next elems =>
    split at h
    · next ps hps =>
      cases h
      exact decodeElems_finite elems ps hps
    · cases h
  · cases h
    simp [Slice.elems]
  · cases h

theorem encodeProduct_of_finite (p : Product) (h : p.Price.isFinite = true) :
    ∃ bits, p.Price = .finite bits ∧ encodeProduct p = some (productObject p bits) := by
  obtain ⟨id, name, price⟩ := p
  cases price with
  | finite bits => exact ⟨bits, rfl, rfl⟩
  | inf _ => simp [Float64.isFinite] at h
  | nan => simp [Float64.isFinite] at h

theorem encodeElems_of_finite (ps : List Product)
    (h : ∀ p ∈ ps, p.Price.isFinite = true) : ∃ elems, encodeElems ps = some elems := by
  induction ps with
  | nil => exact ⟨[], rfl⟩
  | cons p rest ih =>
    obtain ⟨elems, hrest⟩ := ih (fun q hq => h q (List.mem_cons_of_mem _ hq))
    obtain ⟨bits, _, hp⟩ := encodeProduct_of_finite p (h p (List.mem_cons_self _ _))
    exact ⟨productObject p bits :: elems, by simp [encodeElems, hp, hrest]⟩

/-- Marshalling a slice of finite-priced products never fails. -/
theorem marshalProducts_of_finite (s : Slice Product)
    (h : ∀ p ∈ s.elems, p.Price.isFinite = true) : ∃ v, marshalProducts s = some v := by
  cases s with
  | none => exact ⟨.null, rfl⟩
  | some ps =>
    obtain ⟨elems, hps⟩ := encodeElems_of_finite ps (by simpa [Slice.elems] using h)
    exact ⟨.arr elems, by simp [marshalProducts, hps]⟩

theorem addLoop_of_decodesTo (bs : List Payload) (items : List Product) (acc : Slice Product)
    (h : DecodesTo bs items) : addLoop bs acc = .ok (acc.appendAll items) := by
  induction h generalizing acc with
  | nil => rfl
  | cons hb _ ih =>
    simp only [addLoop, hb]
    rw [ih, Slice.append_eq_appendAll, Slice.appendAll_appendAll]
    rfl

theorem decodesTo_of_addLoop (bs : List Payload) (acc r : Slice Product)
    (h : addLoop bs acc = .ok r) : ∃ items, DecodesTo bs items ∧ r = acc.appendAll items := by
  induction bs generalizing acc with
  | nil =>
    simp only [addLoop] at h
    cases h
    exact ⟨[], List.Forall₂.nil, rfl⟩
  | cons b rest ih =>
    unfold addLoop at h
    split at h
    · cases h
    · next p hp =>
      obtain ⟨items, hitems, hr⟩ := ih _ h
      refine ⟨p :: items, List.Forall₂.cons hp hitems, ?_⟩
      rw [hr, Slice.append_eq_appendAll, Slice.appendAll_appendAll]
      rfl

theorem addLoop_error_of_mem (bs : List Payload) (acc : Slice Product) (b : Payload)
    (e : JsonError) (hb : b ∈ bs) (he : unmarshalProduct b = .error e) :
    ∃ e1, addLoop bs acc = .error e1 := by
  induction bs generalizing acc with
  | nil => cases hb
  | cons c rest ih =>
    unfold addLoop
    split
    · next e1 _ => exact ⟨e1, rfl⟩
    · next p hp =>
      rcases List.mem_cons.mp hb with rfl | hmem
      · rw [he] at hp
        cases hp
      · exact ih _ hmem

theorem decodesTo_finite (bs : List Payload) (items : List Product) (h : DecodesTo bs items) :
    ∀ p ∈ items, p.Price.isFinite = true := by
  induction h with
  | nil => simp
  | cons hb _ ih =>
    intro p hp
    rcases List.mem_cons.mp hp with rfl | hp
    · exact unmarshalProduct_finite _ _ hb
    · exact ih p hp

theorem viewLoop_of_decodesToSlices (bs : List Payload) (slices : List (Slice Product))
    (acc : Slice Product) (h : DecodesToSlices bs slices) :
    viewLoop bs acc = .ok (acc.appendAll (slices.map Slice.elems).flatten) := by
  induction h generalizing acc with
  | nil => rfl
  | cons hb _ ih =>
    simp only [viewLoop, hb]
    rw [ih, Slice.appendAll_appendAll]
    rfl

theorem viewLoop_error_of_mem (bs : List Payload) (acc : Slice Product) (b : Payload)
    (e : JsonError) (hb : b ∈ bs) (he : unmarshalProducts b = .error e) :
    ∃ e1, viewLoop bs acc = .error e1 := by
  induction bs generalizing acc with
  | nil => cases hb
  | cons c rest ih =>
    unfold viewLoop
    split
    · next e1 _ => exact ⟨e1, rfl⟩
    · next p hp =>
      rcases List.mem_cons.mp hb with rfl | hmem
      · rw [he] at hp
        cases hp
      · exact ih _ hmem

theorem decodesToSlices_finite (bs : List Payload) (slices : List (Slice Product))
    (h : DecodesToSlices bs slices) :
    ∀ p ∈ (slices.map Slice.elems).flatten, p.Price.isFinite = true := by
  induction h with
  | nil => simp
  | cons hb _ ih =>
    intro p hp
    simp only [List.map_cons, List.flatten_cons, List.mem_append] at hp
    rcases hp with hp | hp
    · exact unmarshalProducts_finite _ _ hb p hp
    · exact ih p hp

theorem add_of_decode_error (f : Faults) (uuid : String) (body : Payload) (st : Store)
    (e : JsonError) (hbody : unmarshalProduct body = .error e) :
    addToCartHandler f uuid body st = (httpError "Error decoding request body" 400, st) := by
  simp only [addToCartHandler, hbody]

theorem add_of_lrange_fault (f : Faults) (uuid : String) (body : Payload) (st : Store)
    (i : Product) (hbody : unmarshalProduct body = .ok i) (hread : f.lrange = true) :
    addToCartHandler f uuid body st = (httpError "Error retrieving shopping cart" 500, st) := by
  simp [addToCartHandler, hbody, LRange, hread]

theorem add_of_loop_error (f : Faults) (uuid : String) (body : Payload) (st : Store)
    (i : Product) (e : JsonError) (hbody : unmarshalProduct body = .ok i)
    (hread : f.lrange = false) (hloop : addLoop (st (cartKey uuid)) none = .error e) :
    addToCartHandler f uuid body st = (httpError "Error decoding product from JSON" 500, st) := by
  simp [addToCartHandler, hbody, LRange, hread, hloop]

/-- Past the loop, the marshalled cart exists: the encoding branch at lines
114-117 is never taken. -/
theorem marshal_cart_exists (body : Payload) (i : Product) (bs : List Payload)
    (olds : List Product) (hbody : unmarshalProduct body = .ok i) (holds : DecodesTo bs olds) :
    ∃ v, marshalProducts (some (olds ++ [i])) = some v := by
  apply marshalProducts_of_finite
  intro p hp
  simp only [Slice.elems, Option.getD_some, List.mem_append, List.mem_singleton] at hp
  rcases hp with hp | rfl
  · exact decodesTo_finite bs olds holds p hp
  · exact unmarshalProduct_finite body _ hbody

theorem add_of_del_fault (f : Faults) (uuid : String) (body : Payload) (st : Store)
    (i : Product) (olds : List Product) (hbody : unmarshalProduct body = .ok i)
    (hread : f.lrange = false) (holds : DecodesTo (st (cartKey uuid)) olds)
    (hdel : f.del = true) :
    addToCartHandler f uuid body st = (httpError "Error clearing existing cart" 500, st) := by
  obtain ⟨v, hv⟩ := marshal_cart_exists body i _ olds hbody holds
  have hloop := addLoop_of_decodesTo _ _ none holds
  have hslice : (Slice.appendAll none olds).append i = some (olds ++ [i]) := by
    rw [Slice.append_eq_some, Slice.elems_appendAll]
    rfl
  simp [addToCartHandler, hbody, LRange, hread, hloop, hslice, hv, Del, hdel]

theorem add_of_rpush_fault (f : Faults) (uuid : String) (body : Payload) (st : Store)
    (i : Product) (olds : List Product) (hbody : unmarshalProduct body = .ok i)
    (hread : f.lrange = false) (holds : DecodesTo (st (cartKey uuid)) olds)
    (hdel : f.del = false) (hpush : f.rpush = true) :
    addToCartHandler f uuid body st
      = (httpError "Error updating shopping cart" 500, Function.update st (cartKey uuid) []) := by
  obtain ⟨v, hv⟩ := marshal_cart_exists body i _ olds hbody holds
  have hloop := addLoop_of_decodesTo _ _ none holds
  have hslice : (Slice.appendAll none olds).append i = some (olds ++ [i]) := by
    rw [Slice.append_eq_some, Slice.elems_appendAll]
    rfl
  simp [addToCartHandler, hbody, LRange, hread, hloop, hslice, hv, Del, hdel, RPush, hpush]

theorem add_of_success (f : Faults) (uuid : String) (body : Payload) (st : Store)
    (i : Product) (olds : List Product) (v : JSON) (hbody : unmarshalProduct body = .ok i)
    (hread : f.lrange = false) (holds : DecodesTo (st (cartKey uuid)) olds)
    (hv : marshalProducts (some (olds ++ [i])) = some v)
    (hdel : f.del = false) (hpush : f.rpush = false) :
    addToCartHandler f uuid body st
      = (⟨201, .text ("Product added to cart: " ++ uuid)⟩,
          Function.update st (cartKey uuid) [.json v]) := by
  have hloop := addLoop_of_decodesTo _ _ none holds
  have hslice : (Slice.appendAll none olds).append i = some (olds ++ [i]) := by
    rw [Slice.append_eq_some, Slice.elems_appendAll]
    rfl
  simp [addToCartHandler, hbody, LRange, hread, hloop, hslice, hv, Del, hdel, RPush, hpush]

theorem view_of_lrange_fault (f : Faults) (userId : String) (st : Store)
    (hread : f.lrange = true) :
    viewCartHandler f userId st = (httpError "Error retrieving shopping cart" 500, st) := by
  simp [viewCartHandler, LRange, hread]

theorem view_of_loop_error (f : Faults) (userId : String) (st : Store) (e : JsonError)
    (hread : f.lrange = false) (hloop : viewLoop (st (cartKey userId)) none = .error e) :
    viewCartHandler f userId st
      = (httpError "Error decoding product array from JSON" 500, st) := by
  simp [viewCartHandler, LRange, hread, hloop]

theorem view_of_loop_ok (f : Faults) (userId : String) (st : Store) (products : Slice Product)
    (hread : f.lrange = false) (hloop : viewLoop (st (cartKey userId)) none = .ok products) :
    viewCartHandler f userId st = (⟨200, encodeBody products⟩, st) := by
  simp [viewCartHandler, LRange, hread, hloop]

theorem view_snd (f : Faults) (userId : String) (st : Store) :
    (viewCartHandler f userId st).2 = st := by
  cases hread : f.lrange
  · cases hloop : viewLoop (st (cartKey userId)) none with
    | error e => rw [view_of_loop_error f userId st e hread hloop]
    | ok products => rw [view_of_loop_ok f userId st products hread hloop]
  · rw [view_of_lrange_fault f userId st hread]

/-- Every item with a finite price has a request body that decodes to it. -/
theorem unmarshalProduct_productBody (id name : String) (bits : Nat) :
    unmarshalProduct (productBody id name bits) = .ok ⟨id, name, .finite bits⟩ := rfl

theorem unmarshalProducts_productObject (id name : String) (bits : Nat) :
    unmarshalProducts (.json (.arr [productObject ⟨id, name, .finite bits⟩ bits]))
      = .ok (some [⟨id, name, .finite bits⟩]) := rfl

theorem decodeProductValue_of_encodeProduct (p : Product) (v : JSON)
    (h : encodeProduct p = some v) : decodeProductValue Product.zero v = ⟨p, none⟩ := by
  obtain ⟨id, name, price⟩ := p
  cases price with
  | finite bits =>
    simp only [encodeProduct, formatFloat, Option.some.injEq] at h
    subst h
    rfl
  | inf negative => simp [encodeProduct, formatFloat] at h
  | nan => simp [encodeProduct, formatFloat] at h

theorem decodeElems_of_encodeElems (ps : List Product) (elems : List JSON)
    (h : encodeElems ps = some elems) : decodeElems elems = .ok ps := by
  induction ps generalizing elems with
  | nil =>
    simp only [encodeElems, Option.some.injEq] at h
    subst h
    rfl
  | cons p rest ih =>
    unfold encodeElems at h
    split at h
    · next v vs hv hvs =>
      simp only [Option.some.injEq] at h
      subst h
      simp [decodeElems, decodeProductValue_of_encodeProduct p v hv, ih vs hvs]
    · cases h

/-- What `json.Marshal` writes for a slice of products, `json.Unmarshal` reads
back as the same slice. -/
theorem unmarshalProducts_of_marshalProducts (s : Slice Product) (v : JSON)
    (h : marshalProducts s = some v) : unmarshalProducts (.json v) = .ok s := by
  cases s with
  | none =>
    simp only [marshalProducts, Option.some.injEq] at h
    subst h
    rfl
  | some ps =>
    unfold marshalProducts at h
    simp only at h
    split at h
    · next elems helems =>
      simp only [Option.some.injEq] at h
      subst h
      simp [unmarshalProducts, decodeElems_of_encodeElems ps elems helems]
    · cases h

/-- A member that names the price field and holds neither a number nor null
leaves a saved error. -/
theorem storeMember_price_error (d : Decoding) (key : String) (v : JSON)
    (hkey : lookupField key = some .price) (hnum : ∀ n, v ≠ .num n) (hnull : v ≠ .null) :
    (storeMember d (key, v)).savedError ≠ none := by
  simp only [storeMember, hkey]
  unfold storeFloat
  split
  · next n => exact absurd rfl (hnum n)
  · exact absurd rfl hnull
  · exact saveError_ne_none _ _

theorem storeString_error_kept (d : Decoding) (set : Product → String → Product) (v : JSON)
    (h : d.savedError ≠ none) : (storeString d set v).savedError ≠ none := by
  unfold storeString
  split
  · exact h
  · exact h
  · exact saveError_ne_none _ _

theorem storeFloat_error_kept (d : Decoding) (v : JSON) (h : d.savedError ≠ none) :
    (storeFloat d v).savedError ≠ none := by
  unfold storeFloat
  split
  · split
    · exact h
    · exact saveError_ne_none _ _
  · exact h
  · exact saveError_ne_none _ _

theorem storeMember_error_kept (d : Decoding) (m : String × JSON) (h : d.savedError ≠ none) :
    (storeMember d m).savedError ≠ none := by
  unfold storeMember
  split
  · exact h
  · exact storeString_error_kept _ _ _ h
  · exact storeString_error_kept _ _ _ h
  · exact storeFloat_error_kept _ _ h

theorem foldl_storeMember_error_kept (members : List (String × JSON)) (d : Decoding)
    (h : d.savedError ≠ none) : (members.foldl storeMember d).savedError ≠ none := by
  induction members generalizing d with
  | nil => exact h
  | cons m rest ih => exact ih _ (storeMember_error_kept d m h)

theorem foldl_storeMember_price_error (members : List (String × JSON)) (d : Decoding)
    (key : String) (v : JSON) (hmem : (key, v) ∈ members)
    (hkey : lookupField key = some .price) (hnum : ∀ n, v ≠ .num n) (hnull : v ≠ .null) :
    (members.foldl storeMember d).savedError ≠ none := by
  induction members generalizing d with
  | nil => cases hmem
  | cons m rest ih =>
    rcases List.mem_cons.mp hmem with rfl | hrest
    · exact foldl_storeMember_error_kept rest _ (storeMember_price_error d key v hkey hnum hnull)
    · exact ih _ hrest

/-- A single add-item call stepped to its end is `addToCartHandler`. -/
theorem run_add_alone (f : Faults) (uuid : String) (body : Payload) (st : Store) :
    System.run f ⟨[.add (.start uuid body)], st⟩ [0, 0, 0]
      = ⟨[.add (.done (addToCartHandler f uuid body st).1)],
          (addToCartHandler f uuid body st).2⟩ := by
  cases hbody : unmarshalProduct body with
  | error e =>
    simp [System.run, System.step, Call.step, AddCall.step, addToCartHandler, hbody]
  | ok product =>
    cases hread : f.lrange with
    | true =>
      simp [System.run, System.step, Call.step, AddCall.step, addToCartHandler, hbody, LRange,
        hread]
    | false =>
      cases hloop : addLoop (st (cartKey uuid)) none with
      | error e =>
        simp [System.run, System.step, Call.step, AddCall.step, addToCartHandler, hbody,
          LRange, hread, hloop]
      | ok products =>
        cases hcart : marshalProducts (products.append product) with
        | none =>
          simp [System.run, System.step, Call.step, AddCall.step, addToCartHandler, hbody,
            LRange, hread, hloop, hcart]
        | some updatedCart =>
          cases hdel : f.del with
          | true =>
            simp [System.run, System.step, Call.step, AddCall.step, addToCartHandler, hbody,
              LRange, hread, hloop, hcart, Del, hdel]
          | false =>
            cases hpush : f.rpush with
            | true =>
              simp [System.run, System.step, Call.step, AddCall.step, addToCartHandler, hbody,
                LRange, hread, hloop, hcart, Del, hdel, RPush, hpush]
            | false =>
              simp [System.run, System.step, Call.step, AddCall.step, addToCartHandler, hbody,
                LRange, hread, hloop, hcart, Del, hdel, RPush, hpush]

/-- A single view-cart call stepped once is `viewCartHandler`. -/
theorem run_view_alone (f : Faults) (userId : String) (st : Store) :
    System.run f ⟨[.view userId], st⟩ [0]
      = ⟨[.viewDone (viewCartHandler f userId st).1], (viewCartHandler f userId st).2⟩ := by
  simp [System.run, System.step, Call.step]

/-! ## The claims -/

/-- C1: when the key `cart:<id>` of the generated identifier is absent and the
store answers, add-item of a body that decodes to the item `i` answers 201
with the identifier in its body, and view-cart of that identifier then answers
200 with the JSON array of exactly one object, which carries the id, name and
price of `i` and decodes back to the one-element slice `[i]`. -/
theorem add_then_view_round_trip (uuid : String) (body : Payload) (st : Store) (i : Product)
    (habsent : st (cartKey uuid) = []) (hbody : unmarshalProduct body = .ok i) :
    ∃ bits, i.Price = .finite bits ∧
      (addToCartHandler Faults.none uuid body st).1
        = ⟨201, .text ("Product added to cart: " ++ uuid)⟩ ∧
      viewCartHandler Faults.none uuid (addToCartHandler Faults.none uuid body st).2
        = (⟨200, .json (.arr [productObject i bits])⟩,
            (addToCartHandler Faults.none uuid body st).2) ∧
      unmarshalProducts (.json (.arr [productObject i bits])) = .ok (some [i]) := by
  obtain ⟨bits, hbits, henc⟩ := encodeProduct_of_finite i (unmarshalProduct_finite body i hbody)
  have holds : DecodesTo (st (cartKey uuid)) [] := by
    rw [habsent]
    exact List.Forall₂.nil
  have hv : marshalProducts (some ([] ++ [i])) = some (.arr [productObject i bits]) := by
    simp [marshalProducts, encodeElems, henc]
  have hadd := add_of_success Faults.none uuid body st i [] _ hbody rfl holds hv rfl rfl
  have hdec : unmarshalProducts (.json (.arr [productObject i bits])) = .ok (some [i]) := by
    obtain ⟨id, name, price⟩ := i
    cases hbits
    exact unmarshalProducts_productObject id name bits
  refine ⟨bits, hbits, ?_, ?_, hdec⟩
  · rw [hadd]
  · rw [hadd]
    have hloop : viewLoop (Function.update st (cartKey uuid)
        [Payload.json (.arr [productObject i bits])] (cartKey uuid)) none = .ok (some [i]) := by
      simp [viewLoop, hdec, Slice.appendAll, Slice.elems]
    rw [view_of_loop_ok Faults.none uuid _ (some [i]) rfl hloop]
    simp [encodeBody, marshalProducts, encodeElems, henc]

/-- Witness of C1 at the empty store, the identifier `u` and the body of the
item (a, apple, 3). -/
theorem add_then_view_round_trip_witness :
    Store.empty (cartKey "u") = [] ∧
    unmarshalProduct appleBody = .ok apple ∧
    ∃ bits, apple.Price = .finite bits ∧
      (addToCartHandler Faults.none "u" appleBody Store.empty).1
        = ⟨201, .text ("Product added to cart: " ++ "u")⟩ ∧
      viewCartHandler Faults.none "u"
          (addToCartHandler Faults.none "u" appleBody Store.empty).2
        = (⟨200, .json (.arr [productObject apple bits])⟩,
            (addToCartHandler Faults.none "u" appleBody Store.empty).2) ∧
      unmarshalProducts (.json (.arr [productObject apple bits]))
        = .ok (some [apple]) :=
  ⟨rfl, rfl, add_then_view_round_trip "u" appleBody Store.empty
    apple rfl rfl⟩

/-- C2: whenever add-item answers 201, its body is `Product added to cart:
<id>`, the request body decoded to an item `i`, the payloads previously under
`cart:<id>` decoded, in store order, to items `olds`, the key afterwards holds
exactly one payload, the JSON encoding of the array `olds` followed by `i`,
and every other key is unchanged. -/
theorem add_success_postcondition (f : Faults) (uuid : String) (body : Payload) (st : Store)
    (hcreated : (addToCartHandler f uuid body st).1.status = 201) :
    ∃ i olds v,
      unmarshalProduct body = .ok i ∧
      DecodesTo (st (cartKey uuid)) olds ∧
      marshalProducts (some (olds ++ [i])) = some v ∧
      (addToCartHandler f uuid body st).1 = ⟨201, .text ("Product added to cart: " ++ uuid)⟩ ∧
      (addToCartHandler f uuid body st).2 (cartKey uuid) = [.json v] ∧
      ∀ key, key ≠ cartKey uuid → (addToCartHandler f uuid body st).2 key = st key := by
  cases hbody : unmarshalProduct body with
  | error e =>
    rw [add_of_decode_error f uuid body st e hbody] at hcreated
    simp [httpError] at hcreated
  | ok i =>
    cases hread : f.lrange with
    | true =>
      rw [add_of_lrange_fault f uuid body st i hbody hread] at hcreated
      simp [httpError] at hcreated
    | false =>
      cases hloop : addLoop (st (cartKey uuid)) none with
      | error e =>
        rw [add_of_loop_error f uuid body st i e hbody hread hloop] at hcreated
        simp [httpError] at hcreated
      | ok products =>
        obtain ⟨olds, holds, _⟩ := decodesTo_of_addLoop _ _ _ hloop
        obtain ⟨v, hv⟩ := marshal_cart_exists body i _ olds hbody holds
        cases hdel : f.del with
        | true =>
          rw [add_of_del_fault f uuid body st i olds hbody hread holds hdel] at hcreated
          simp [httpError] at hcreated
        | false =>
          cases hpush : f.rpush with
          | true =>
            rw [add_of_rpush_fault f uuid body st i olds hbody hread holds hdel hpush]
              at hcreated
            simp [httpError] at hcreated
          | false =>
            refine ⟨i, olds, v, rfl, holds, hv, ?_, ?_, ?_⟩
            · rw [add_of_success f uuid body st i olds v hbody hread holds hv hdel hpush]
            · rw [add_of_success f uuid body st i olds v hbody hread holds hv hdel hpush]
              simp
            · intro key hkey
              rw [add_of_success f uuid body st i olds v hbody hread holds hv hdel hpush]
              simp [Function.update, hkey]

/-- Witness of C2: a key that already holds the object of one product. -/
theorem add_success_postcondition_witness :
    (addToCartHandler Faults.none "u" pearBody
      (Function.update Store.empty (cartKey "u") [appleBody])).1.status = 201 ∧
    ∃ i olds v,
      unmarshalProduct pearBody = .ok i ∧
      DecodesTo (Function.update Store.empty (cartKey "u") [appleBody]
        (cartKey "u")) olds ∧
      marshalProducts (some (olds ++ [i])) = some v ∧
      (addToCartHandler Faults.none "u" pearBody
        (Function.update Store.empty (cartKey "u") [appleBody])).1
        = ⟨201, .text ("Product added to cart: " ++ "u")⟩ ∧
      (addToCartHandler Faults.none "u" pearBody
        (Function.update Store.empty (cartKey "u") [appleBody])).2 (cartKey "u")
        = [.json v] ∧
      ∀ key, key ≠ cartKey "u" →
        (addToCartHandler Faults.none "u" pearBody
          (Function.update Store.empty (cartKey "u") [appleBody])).2 key
        = Function.update Store.empty (cartKey "u") [appleBody] key :=
  ⟨rfl, add_success_postcondition Faults.none "u" pearBody
    (Function.update Store.empty (cartKey "u") [appleBody]) rfl⟩

/-- C3, the claim evaluated on the code: with the identifier forced to `u` and
the key absent, the first add-item answers 201, the second answers 500 at the
decoding of the stored payload and adds nothing, and view-cart returns the
first item alone. -/
theorem second_add_rejects_stored_cart :
    (addToCartHandler Faults.none "u" appleBody Store.empty).1
      = ⟨201, .text "Product added to cart: u"⟩ ∧
    (addToCartHandler Faults.none "u" pearBody
      (addToCartHandler Faults.none "u" appleBody Store.empty).2).1
      = httpError "Error decoding product from JSON" 500 ∧
    (viewCartHandler Faults.none "u"
      (addToCartHandler Faults.none "u" pearBody
        (addToCartHandler Faults.none "u" appleBody Store.empty).2).2).1
      = ⟨200, .json (.arr [productObject apple 3])⟩ :=
  ⟨rfl, rfl, rfl⟩

/-- C4 refuted: a body that is the empty object (id, name and price all
missing) and a body whose price is null are both accepted with 201, and the
store is written. -/
theorem add_accepts_missing_fields :
    (addToCartHandler Faults.none "u" (.json (.obj [])) Store.empty).1
      = ⟨201, .text "Product added to cart: u"⟩ ∧
    (addToCartHandler Faults.none "u" (.json (.obj [])) Store.empty).1.status ≠ 400 ∧
    (addToCartHandler Faults.none "u" (.json (.obj [])) Store.empty).2 (cartKey "u")
      = [.json (.arr [productObject Product.zero 0])] ∧
    (addToCartHandler Faults.none "u" (.json (.obj [])) Store.empty).2 (cartKey "u")
      ≠ Store.empty (cartKey "u") ∧
    (addToCartHandler Faults.none "u"
      (.json (.obj [("id", .str "a"), ("name", .str "apple"), ("price", .null)]))
      Store.empty).1 = ⟨201, .text "Product added to cart: u"⟩ := by
  refine ⟨rfl, by decide, rfl, ?_, rfl⟩
  intro h
  have h1 : (addToCartHandler Faults.none "u" (.json (.obj [])) Store.empty).2 (cartKey "u")
      = [.json (.arr [productObject Product.zero 0])] := rfl
  rw [h1] at h
  cases h

/-- C4 as amended: a body that is a JSON object with a member naming the price
field (in any letter case) whose value is neither a JSON number nor null is
answered with 400, whatever the store does, and the store is left as it
was. -/
theorem add_rejects_non_numeric_price (f : Faults) (uuid : String) (st : Store)
    (members : List (String × JSON)) (key : String) (v : JSON)
    (hmem : (key, v) ∈ members) (hkey : lookupField key = some .price)
    (hnum : ∀ n, v ≠ .num n) (hnull : v ≠ .null) :
    addToCartHandler f uuid (.json (.obj members)) st
      = (httpError "Error decoding request body" 400, st) := by
  have herr := foldl_storeMember_price_error members ⟨Product.zero, none⟩ key v hmem hkey
    hnum hnull
  cases hsaved : (members.foldl storeMember ⟨Product.zero, none⟩).savedError with
  | none => exact absurd hsaved herr
  | some e =>
    apply add_of_decode_error f uuid _ st e
    simp [unmarshalProduct, decodeProductValue, hsaved]

/-- Witness of the amended C4: the price is the string "3". -/
theorem add_rejects_non_numeric_price_witness :
    addToCartHandler Faults.none "u"
        (.json (.obj [("id", .str "a"), ("name", .str "apple"), ("Price", .str "3")]))
        Store.empty
      = (httpError "Error decoding request body" 400, Store.empty) :=
  add_rejects_non_numeric_price Faults.none "u" Store.empty
    [("id", .str "a"), ("name", .str "apple"), ("Price", .str "3")] "Price" (.str "3")
    (by simp) (by decide) (by intro n h; cases h) (by intro h; cases h)

/-- C5 refuted: for an owner with no key in the store, view-cart answers 200
with the body `null`, which is not the empty array. -/
theorem view_absent_key_body_is_null :
    viewCartHandler Faults.none "u" Store.empty = (⟨200, .json .null⟩, Store.empty) ∧
    (viewCartHandler Faults.none "u" Store.empty).1.body ≠ .json (.arr []) := by
  refine ⟨rfl, ?_⟩
  intro h
  have h1 : (viewCartHandler Faults.none "u" Store.empty).1.body = .json .null := rfl
  rw [h1] at h
  cases h

/-- C5 as amended: for every owner whose key is absent, with the store
answering, view-cart answers 200 and its body is the JSON value `null` (the
encoding of the nil slice of products); it is not an error, and the store is
unchanged. -/
theorem view_unknown_owner (userId : String) (st : Store)
    (habsent : st (cartKey userId) = []) :
    viewCartHandler Faults.none userId st = (⟨200, .json .null⟩, st) := by
  have hloop : viewLoop (st (cartKey userId)) none = .ok none := by
    rw [habsent]
    rfl
  rw [view_of_loop_ok Faults.none userId st none rfl hloop]
  rfl

/-- Witness of the amended C5: another owner has a cart, `u` has none. -/
theorem view_unknown_owner_witness :
    Function.update Store.empty (cartKey "v") [appleBody] (cartKey "u") = [] ∧
    viewCartHandler Faults.none "u"
        (Function.update Store.empty (cartKey "v") [appleBody])
      = (⟨200, .json .null⟩,
          Function.update Store.empty (cartKey "v") [appleBody]) :=
  ⟨rfl, view_unknown_owner "u"
    (Function.update Store.empty (cartKey "v") [appleBody]) rfl⟩

/-- C6: with the store answering, (1) if every payload under `cart:<ownerId>`
decodes as an array of items (or null), view-cart answers 200 and its body is
the JSON encoding of the concatenation of the decoded sequences in store
order (the nil slice, written `null`, when that concatenation is empty), a
body that decodes back to that concatenation; (2) if one payload fails to
decode as an array of items, view-cart answers 500 with the plain error
message alone and no items. -/
theorem view_reconstruction (userId : String) (st : Store) :
    (∀ slices, DecodesToSlices (st (cartKey userId)) slices →
      ∃ v,
        marshalProducts (Slice.appendAll none (slices.map Slice.elems).flatten) = some v ∧
        viewCartHandler Faults.none userId st = (⟨200, .json v⟩, st) ∧
        (unmarshalProducts (.json v)).map Slice.elems
          = .ok (slices.map Slice.elems).flatten) ∧
    (∀ b e, b ∈ st (cartKey userId) → unmarshalProducts b = .error e →
      viewCartHandler Faults.none userId st
        = (httpError "Error decoding product array from JSON" 500, st)) := by
  constructor
  · intro slices hslices
    have hfin : ∀ p ∈ (Slice.appendAll none (slices.map Slice.elems).flatten).elems,
        p.Price.isFinite = true := by
      intro p hp
      rw [Slice.elems_appendAll] at hp
      exact decodesToSlices_finite _ _ hslices p (by simpa [Slice.elems] using hp)
    obtain ⟨v, hv⟩ := marshalProducts_of_finite _ hfin
    refine ⟨v, hv, ?_, ?_⟩
    · rw [view_of_loop_ok Faults.none userId st _ rfl
        (viewLoop_of_decodesToSlices _ _ none hslices)]
      simp [encodeBody, hv]
    · rw [unmarshalProducts_of_marshalProducts _ v hv]
      have helems := Slice.elems_appendAll none (slices.map Slice.elems).flatten
      simp only [Except.map, helems]
      simp [Slice.elems]
  · intro b e hb he
    obtain ⟨e1, he1⟩ := viewLoop_error_of_mem _ none b e hb he
    exact view_of_loop_error Faults.none userId st e1 rfl he1

/-- Witness of C6: two array payloads are concatenated; an array followed by
the object of a single product is a 500. -/
theorem view_reconstruction_witness :
    viewCartHandler Faults.none "u" (Function.update Store.empty (cartKey "u")
        [.json (.arr [productObject apple 3]),
         .json (.arr [productObject pear 2])])
      = (⟨200, .json (.arr [productObject apple 3,
            productObject pear 2])⟩,
          Function.update Store.empty (cartKey "u")
            [.json (.arr [productObject apple 3]),
             .json (.arr [productObject pear 2])]) ∧
    viewCartHandler Faults.none "u" (Function.update Store.empty (cartKey "u")
        [.json (.arr [productObject apple 3]), pearBody])
      = (httpError "Error decoding product array from JSON" 500,
          Function.update Store.empty (cartKey "u")
            [.json (.arr [productObject apple 3]),
             pearBody]) := by
  constructor
  · obtain ⟨v, hv, hview, _⟩ := (view_reconstruction "u" (Function.update Store.empty
      (cartKey "u") [.json (.arr [productObject apple 3]),
        .json (.arr [productObject pear 2])])).1
      [some [apple], some [pear]]
      (List.Forall₂.cons rfl (List.Forall₂.cons rfl List.Forall₂.nil))
    have hv2 : marshalProducts (Slice.appendAll none
        (([some [apple], some [pear]] :
          List (Slice Product)).map Slice.elems).flatten)
        = some (.arr [productObject apple 3,
            productObject pear 2]) := rfl
    rw [hv2] at hv
    cases hv
    exact hview
  · exact (view_reconstruction "u" (Function.update Store.empty (cartKey "u")
      [.json (.arr [productObject apple 3]), pearBody])).2
      pearBody (.unmarshalType "object") (by
        show pearBody ∈
          [Payload.json (.arr [productObject apple 3]),
            pearBody]
        simp) rfl

/-- C7: with every store command failing, add-item of a decodable body answers
500 and view-cart answers 500; neither status is a success and neither
handler changes the store. -/
theorem store_unavailable (uuid userId : String) (body : Payload) (st : Store) (i : Product)
    (hbody : unmarshalProduct body = .ok i) :
    addToCartHandler Faults.all uuid body st
      = (httpError "Error retrieving shopping cart" 500, st) ∧
    (addToCartHandler Faults.all uuid body st).1.status = 500 ∧
    viewCartHandler Faults.all userId st
      = (httpError "Error retrieving shopping cart" 500, st) ∧
    (viewCartHandler Faults.all userId st).1.status = 500 := by
  have hadd := add_of_lrange_fault Faults.all uuid body st i hbody rfl
  have hview := view_of_lrange_fault Faults.all userId st rfl
  refine ⟨hadd, ?_, hview, ?_⟩
  · rw [hadd]
    rfl
  · rw [hview]
    rfl

/-- Witness of C7 at a store that holds a cart. -/
theorem store_unavailable_witness :
    unmarshalProduct pearBody = .ok pear ∧
    addToCartHandler Faults.all "u" pearBody
        (Function.update Store.empty (cartKey "u") [appleBody])
      = (httpError "Error retrieving shopping cart" 500,
          Function.update Store.empty (cartKey "u") [appleBody]) ∧
    (addToCartHandler Faults.all "u" pearBody
        (Function.update Store.empty (cartKey "u") [appleBody])).1.status
      = 500 ∧
    viewCartHandler Faults.all "u"
        (Function.update Store.empty (cartKey "u") [appleBody])
      = (httpError "Error retrieving shopping cart" 500,
          Function.update Store.empty (cartKey "u") [appleBody]) ∧
    (viewCartHandler Faults.all "u"
        (Function.update Store.empty (cartKey "u") [appleBody])).1.status
      = 500 :=
  ⟨rfl, store_unavailable "u" "u" pearBody
    (Function.update Store.empty (cartKey "u") [appleBody])
    pear rfl⟩

/-- C8: view-cart leaves the store as it found it, whatever the store holds
and whether or not the read fails, so a second view-cart right after the
first returns the same status and the same body. -/
theorem view_read_only (f : Faults) (userId : String) (st : Store) :
    (viewCartHandler f userId st).2 = st ∧
    viewCartHandler f userId (viewCartHandler f userId st).2 = viewCartHandler f userId st := by
  refine ⟨view_snd f userId st, ?_⟩
  rw [view_snd f userId st]

/-- C9: for a decodable request body, (a) if the read of the key fails, or the
read succeeds and one stored payload fails to decode as an item, add-item
answers 500 and the store is unchanged; (b) if the read and the decoding of
every stored payload succeed, the delete succeeds and the append fails,
add-item answers 500 and the key `cart:<id>` is left empty, whatever it
held, every other key unchanged. -/
theorem add_failure_not_atomic (f : Faults) (uuid : String) (body : Payload) (st : Store)
    (i : Product) (hbody : unmarshalProduct body = .ok i) :
    (f.lrange = true →
      addToCartHandler f uuid body st
        = (httpError "Error retrieving shopping cart" 500, st)) ∧
    (f.lrange = false →
      ∀ b e, b ∈ st (cartKey uuid) → unmarshalProduct b = .error e →
        addToCartHandler f uuid body st
          = (httpError "Error decoding product from JSON" 500, st)) ∧
    (f.lrange = false → f.del = false → f.rpush = true →
      ∀ olds, DecodesTo (st (cartKey uuid)) olds →
        (addToCartHandler f uuid body st).1 = httpError "Error updating shopping cart" 500 ∧
        (addToCartHandler f uuid body st).2 (cartKey uuid) = [] ∧
        ∀ key, key ≠ cartKey uuid → (addToCartHandler f uuid body st).2 key = st key) := by
  refine ⟨fun hread => add_of_lrange_fault f uuid body st i hbody hread, ?_, ?_⟩
  · intro hread b e hb he
    obtain ⟨e1, he1⟩ := addLoop_error_of_mem _ none b e hb he
    exact add_of_loop_error f uuid body st i e1 hbody hread he1
  · intro hread hdel hpush olds holds
    rw [add_of_rpush_fault f uuid body st i olds hbody hread holds hdel hpush]
    refine ⟨rfl, by simp, ?_⟩
    intro key hkey
    simp [Function.update, hkey]

/-- Witness of C9: the key holds the object of one product; the append fails
after the delete and the key ends empty. -/
theorem add_failure_not_atomic_witness :
    unmarshalProduct pearBody = .ok pear ∧
    Function.update Store.empty (cartKey "u") [appleBody] (cartKey "u")
      = [appleBody] ∧
    (addToCartHandler ⟨false, false, true⟩ "u" pearBody
        (Function.update Store.empty (cartKey "u") [appleBody])).1
      = httpError "Error updating shopping cart" 500 ∧
    (addToCartHandler ⟨false, false, true⟩ "u" pearBody
        (Function.update Store.empty (cartKey "u") [appleBody])).2 (cartKey "u")
      = [] ∧
    ∀ key, key ≠ cartKey "u" →
      (addToCartHandler ⟨false, false, true⟩ "u" pearBody
        (Function.update Store.empty (cartKey "u") [appleBody])).2 key
      = Function.update Store.empty (cartKey "u") [appleBody] key :=
  ⟨rfl, rfl, (add_failure_not_atomic ⟨false, false, true⟩ "u" pearBody
    (Function.update Store.empty (cartKey "u") [appleBody])
    pear rfl).2.2 rfl rfl rfl [apple]
    (List.Forall₂.cons rfl List.Forall₂.nil)⟩

/-- C10: the key `cart:<id>` being absent and the store answering, let calls 0
and 1 be add-item calls for the items `a` and `b` with the same identifier.
(1) There is an interleaving after whose prefix call 0 has appended the cart
`[a]` and call 1 has read but not yet deleted; call 1's delete then empties
the key, both calls answer 201, and the final cart is `[b]` alone.  (2) With
a view-cart call 2, there is an interleaving after whose prefix the key holds
the cart `[b]`; call 0's delete then empties it, the view-cart placed before
call 0's append answers 200 with the empty cart (`null`), and call 0's append
follows. -/
theorem add_race_interleavings (uuid : String) (bodyA bodyB : Payload) (a b : Product)
    (st : Store) (habsent : st (cartKey uuid) = [])
    (ha : unmarshalProduct bodyA = .ok a) (hb : unmarshalProduct bodyB = .ok b) :
    ∃ bitsA bitsB, a.Price = .finite bitsA ∧ b.Price = .finite bitsB ∧
      (∃ pre : List Nat,
        (System.run Faults.none (twoAdds uuid bodyA bodyB st) pre).calls
          = [.add (.done ⟨201, .text ("Product added to cart: " ++ uuid)⟩),
              .add (.afterRead uuid b [])] ∧
        (System.run Faults.none (twoAdds uuid bodyA bodyB st) pre).store (cartKey uuid)
          = [.json (.arr [productObject a bitsA])] ∧
        (System.run Faults.none (twoAdds uuid bodyA bodyB st) (pre ++ [1])).store (cartKey uuid)
          = [] ∧
        (System.run Faults.none (twoAdds uuid bodyA bodyB st) (pre ++ [1, 1])).calls
          = [.add (.done ⟨201, .text ("Product added to cart: " ++ uuid)⟩),
              .add (.done ⟨201, .text ("Product added to cart: " ++ uuid)⟩)] ∧
        (viewCartHandler Faults.none uuid
          (System.run Faults.none (twoAdds uuid bodyA bodyB st) (pre ++ [1, 1])).store).1
          = ⟨200, .json (.arr [productObject b bitsB])⟩) ∧
      (∃ pre : List Nat,
        (System.run Faults.none (twoAddsAndView uuid bodyA bodyB st) pre).store (cartKey uuid)
          = [.json (.arr [productObject b bitsB])] ∧
        (System.run Faults.none (twoAddsAndView uuid bodyA bodyB st) (pre ++ [0])).calls
          = [.add (.afterDel uuid (.arr [productObject a bitsA])),
              .add (.done ⟨201, .text ("Product added to cart: " ++ uuid)⟩), .view uuid] ∧
        (System.run Faults.none (twoAddsAndView uuid bodyA bodyB st)
          (pre ++ [0])).store (cartKey uuid) = [] ∧
        (System.run Faults.none (twoAddsAndView uuid bodyA bodyB st) (pre ++ [0, 2])).calls
          = [.add (.afterDel uuid (.arr [productObject a bitsA])),
              .add (.done ⟨201, .text ("Product added to cart: " ++ uuid)⟩),
              .viewDone ⟨200, .json .null⟩] ∧
        (System.run Faults.none (twoAddsAndView uuid bodyA bodyB st)
          (pre ++ [0, 2, 0])).store (cartKey uuid)
          = [.json (.arr [productObject a bitsA])]) := by
  obtain ⟨bitsA, hbitsA, hencA⟩ :=
    encodeProduct_of_finite a (unmarshalProduct_finite bodyA a ha)
  obtain ⟨bitsB, hbitsB, hencB⟩ :=
    encodeProduct_of_finite b (unmarshalProduct_finite bodyB b hb)
  have hdecB : unmarshalProducts (.json (.arr [productObject b bitsB])) = .ok (some [b]) := by
    obtain ⟨id, name, price⟩ := b
    cases hbitsB
    exact unmarshalProducts_productObject id name bitsB
  refine ⟨bitsA, bitsB, hbitsA, hbitsB, ⟨[0, 1, 0, 0], ?_⟩, ⟨[0, 1, 1, 1], ?_⟩⟩
  · simp [System.run, System.step, Call.step, AddCall.step, twoAdds, ha, hb, LRange,
      Faults.none, habsent, addLoop, Slice.append, marshalProducts, encodeElems, hencA, hencB,
      Del, RPush, viewCartHandler, viewLoop, hdecB, Slice.appendAll, Slice.elems, encodeBody]
  · simp [System.run, System.step, Call.step, AddCall.step, twoAddsAndView, ha, hb, LRange,
      Faults.none, habsent, addLoop, Slice.append, marshalProducts, encodeElems, hencA, hencB,
      Del, RPush, viewCartHandler, viewLoop, hdecB, Slice.appendAll, Slice.elems, encodeBody]

/-- Witness of C10 at the empty store, with the items (a, apple, 3) and
(b, pear, 2). -/
theorem add_race_interleavings_witness :
    Store.empty (cartKey "u") = [] ∧
    unmarshalProduct appleBody = .ok apple ∧
    unmarshalProduct pearBody = .ok pear ∧
    ∃ bitsA bitsB, apple.Price = .finite bitsA ∧ pear.Price = .finite bitsB ∧
      (∃ pre : List Nat,
        (System.run Faults.none (twoAdds "u" appleBody pearBody Store.empty) pre).calls
          = [.add (.done ⟨201, .text ("Product added to cart: " ++ "u")⟩),
              .add (.afterRead "u" pear [])] ∧
        (System.run Faults.none (twoAdds "u" appleBody pearBody Store.empty) pre).store
          (cartKey "u")
          = [.json (.arr [productObject apple bitsA])] ∧
        (System.run Faults.none (twoAdds "u" appleBody pearBody Store.empty) (pre ++ [1])).store
          (cartKey "u")
          = [] ∧
        (System.run Faults.none (twoAdds "u" appleBody pearBody Store.empty) (pre ++ [1, 1])).calls
          = [.add (.done ⟨201, .text ("Product added to cart: " ++ "u")⟩),
              .add (.done ⟨201, .text ("Product added to cart: " ++ "u")⟩)] ∧
        (viewCartHandler Faults.none "u"
          (System.run Faults.none (twoAdds "u" appleBody pearBody Store.empty)
            (pre ++ [1, 1])).store).1
          = ⟨200, .json (.arr [productObject pear bitsB])⟩) ∧
      (∃ pre : List Nat,
        (System.run Faults.none (twoAddsAndView "u" appleBody pearBody Store.empty) pre).store
          (cartKey "u")
          = [.json (.arr [productObject pear bitsB])] ∧
        (System.run Faults.none (twoAddsAndView "u" appleBody pearBody Store.empty)
          (pre ++ [0])).calls
          = [.add (.afterDel "u" (.arr [productObject apple bitsA])),
              .add (.done ⟨201, .text ("Product added to cart: " ++ "u")⟩), .view "u"] ∧
        (System.run Faults.none (twoAddsAndView "u" appleBody pearBody Store.empty)
          (pre ++ [0])).store (cartKey "u") = [] ∧
        (System.run Faults.none (twoAddsAndView "u" appleBody pearBody Store.empty)
          (pre ++ [0, 2])).calls
          = [.add (.afterDel "u" (.arr [productObject apple bitsA])),
              .add (.done ⟨201, .text ("Product added to cart: " ++ "u")⟩),
              .viewDone ⟨200, .json .null⟩] ∧
        (System.run Faults.none (twoAddsAndView "u" appleBody pearBody Store.empty)
          (pre ++ [0, 2, 0])).store (cartKey "u")
          = [.json (.arr [productObject apple bitsA])]) :=
  ⟨rfl, rfl, rfl,
    add_race_interleavings "u" appleBody pearBody apple pear Store.empty rfl rfl rfl⟩

end GoRedisCart
